import Mathlib

/-!
Verification of the model-filters query engine: a shallow embedding of the
clause data model, the query compiler (`build_query_filter`,
`make_query_filter`, `build_query_params`), the clause-sequence validator
(`clean_field_filters`), value cleaning (`clean_value`), the access-control
evaluator (`user_has_permission` and the admin permission wrappers), the
visibility scoping (`for_user`), and the changelist filter application step
(`list_filter_queryset`).
-/

namespace ModelFilters

/-- Modelled from the spec: the OR-separator sentinel from the constants
module, which is not part of the sources at hand. The engine only ever
compares clause fields against it for equality, so the exact spelling is
immaterial; it must merely differ from real field paths and operators. -/
def OR_SEPARATOR : String := "___or___"

/-- Operator token for the is-null operator (spelling fixed by the tests). -/
def IS_NULL : String := "isnull"

/-- Operator token for the is-empty operator (spelling fixed by the tests). -/
def IS_EMPTY : String := "isempty"

/-- Operator token for the is-true operator (spelling fixed by the tests). -/
def IS_TRUE : String := "istrue"

/-- Operator token for the is-false operator (spelling fixed by the tests). -/
def IS_FALSE : String := "isfalse"

/-- Form key for save-and-apply (spelling fixed by the end-to-end tests). -/
def FORM_SAVE_APPLY : String := "_saveapply"

/-- Modelled from the spec: the form key for "save, apply, and discard",
defined in the constants module which is not part of the sources at hand.
Only membership of this key in the request body is ever tested. -/
def FORM_SAVE_APPLY_DISCARD : String := "_saveapplydiscard"

/-- Settings key for the view owner-only toggle. -/
def SETTING_MODEL_FILTERS_VIEW_OWNER_ONLY : String := "MODEL_FILTERS_VIEW_OWNER_ONLY"

/-- Settings key for the change owner-only toggle. -/
def SETTING_MODEL_FILTERS_CHANGE_OWNER_ONLY : String := "MODEL_FILTERS_CHANGE_OWNER_ONLY"

/-- Settings key for the delete owner-only toggle. -/
def SETTING_MODEL_FILTERS_DELETE_OWNER_ONLY : String := "MODEL_FILTERS_DELETE_OWNER_ONLY"

/-- Settings key for the guardian toggle. -/
def SETTING_MODEL_FILTERS_USE_GUARDIAN : String := "MODEL_FILTERS_USE_GUARDIAN"

/-- Modelled from the spec: the owner-only toggles default to true. -/
def DEFAULT_MODEL_FILTERS_VIEW_OWNER_ONLY : Bool := true

/-- Modelled from the spec: the owner-only toggles default to true. -/
def DEFAULT_MODEL_FILTERS_CHANGE_OWNER_ONLY : Bool := true

/-- Modelled from the spec: the owner-only toggles default to true. -/
def DEFAULT_MODEL_FILTERS_DELETE_OWNER_ONLY : Bool := true

/-- Modelled from the spec: object-level permissions default to off. -/
def DEFAULT_MODEL_FILTERS_USE_GUARDIAN : Bool := false

/-- One clause of a stored filter: `model_filters.models.FieldFilter`.
The `field` is a dotted field path or the OR-separator sentinel. -/
structure FieldFilter where
  field : String
  operator : String
  value : String
  negate : Bool
deriving DecidableEq, Repr

/-- A typed operand of a query condition: the right-hand sides produced by
`build_query_params`. `conv path raw` stands for the value returned by the
target field's `to_python` conversion of the raw string, an external
collaborator call kept symbolic. -/
inductive QVal where
| null : QVal
| str : String → QVal
| bool : Bool → QVal
| conv : String → String → QVal
deriving DecidableEq, Repr

/-- Boolean query expressions: the shape of Django `Q` objects the compiler
builds. A leaf is a conjunction of keyword conditions. -/
inductive QExpr where
| leaf : List (String × QVal) → QExpr
| qand : QExpr → QExpr → QExpr
| qor : QExpr → QExpr → QExpr
| qnot : QExpr → QExpr
deriving DecidableEq, Repr

/-- Evaluate a query expression against a row, abstracted as a valuation of
atomic conditions. An empty leaf is the empty conjunction and holds. -/
def QExpr.eval (env : String → QVal → Bool) : QExpr → Bool
| .leaf ps => ps.all (fun p => env p.1 p.2)
| .qand a b => a.eval env && b.eval env
| .qor a b => a.eval env || b.eval env
| .qnot a => !(a.eval env)

/-- Embeds `build_query_params` from `model_filters/utilities.py`: the fixed
operand mapping from one field filter to the keyword-condition set. -/
def build_query_params (f : FieldFilter) : List (String × QVal) :=
  if f.operator = IS_NULL then [(f.field, QVal.null)]
  else if f.operator = IS_EMPTY then [(f.field, QVal.str "")]
  else if f.operator = IS_TRUE then [(f.field, QVal.bool true)]
  else if f.operator = IS_FALSE then [(f.field, QVal.bool false)]
  else [(f.field ++ "__" ++ f.operator, QVal.conv f.field f.value)]

/-- Embeds `make_query_filter` from `model_filters/utilities.py`: one clause
condition, negated when the clause's `negate` flag is set. The code starts
from an empty `Q()` and conjoins, which the embedding mirrors. -/
def make_query_filter (f : FieldFilter) : QExpr :=
  if f.negate then QExpr.qand (QExpr.leaf []) (QExpr.qnot (QExpr.leaf (build_query_params f)))
  else QExpr.qand (QExpr.leaf []) (QExpr.leaf (build_query_params f))

/-- The loop of `build_query_filter`: walks the stored clauses in order with
an AND accumulator and a list of OR branches. -/
def build_query_filter_loop : List FieldFilter → QExpr → List QExpr → QExpr × List QExpr
| [], query_to_and, queries_to_or => (query_to_and, queries_to_or)
| f :: rest, query_to_and, queries_to_or =>
  if f.field = OR_SEPARATOR then
    build_query_filter_loop rest (QExpr.leaf []) (queries_to_or ++ [query_to_and])
  else
    build_query_filter_loop rest (QExpr.qand query_to_and (make_query_filter f)) queries_to_or

/-- Python's `reduce(or_, l)` on a nonempty list, given as head and tail. -/
def reduce_or (q : QExpr) (l : List QExpr) : QExpr := l.foldl QExpr.qor q

/-- Embeds `build_query_filter` from `model_filters/utilities.py`: compile a
stored clause sequence into one boolean query expression. -/
def build_query_filter (fields : List FieldFilter) : QExpr :=
  let res := build_query_filter_loop fields (QExpr.leaf []) []
  match res.2 with
  | [] => res.1
  | q :: rest => reduce_or q (rest ++ [res.1])

/-- Spec-side operand mapping, following the spec text: is-null gives
field = null; is-empty gives field = the empty string; is-true gives
field = true; is-false gives field = false; any other operator gives a
parameterized comparison keyed by the field path with the operator as a
suffix, against the converted value. -/
def spec_clause_params (f : FieldFilter) : List (String × QVal) :=
  if f.operator = IS_NULL then [(f.field, QVal.null)]
  else if f.operator = IS_EMPTY then [(f.field, QVal.str "")]
  else if f.operator = IS_TRUE then [(f.field, QVal.bool true)]
  else if f.operator = IS_FALSE then [(f.field, QVal.bool false)]
  else [(f.field ++ "__" ++ f.operator, QVal.conv f.field f.value)]

/-- Spec-side truth of a single clause on a row: the conjunction of its
operand conditions, inverted when `negate` is set. -/
def spec_clause_holds (env : String → QVal → Bool) (f : FieldFilter) : Bool :=
  let c := (spec_clause_params f).all (fun p => env p.1 p.2)
  if f.negate then !c else c

/-- Spec-side splitting of a clause sequence at OR-separator positions:
the first AND-group paired with the list of the later AND-groups. -/
def splitGroups : List FieldFilter → List FieldFilter × List (List FieldFilter)
| [] => ([], [])
| f :: rest =>
  if f.field = OR_SEPARATOR then ([], (splitGroups rest).1 :: (splitGroups rest).2)
  else (f :: (splitGroups rest).1, (splitGroups rest).2)

/-- Spec-side truth of an AND-group: all its clauses hold. -/
def group_holds (env : String → QVal → Bool) (g : List FieldFilter) : Bool :=
  g.all (spec_clause_holds env)

/-- Spec-side semantics of compilation: the disjunction over the AND-groups
obtained by splitting exactly at OR-separator positions. -/
def spec_compile_eval (env : String → QVal → Bool) (fields : List FieldFilter) : Bool :=
  group_holds env (splitGroups fields).1 || ((splitGroups fields).2.any (group_holds env))

/-- One entry of the inline formset's cleaned data: an optional cleaned
field path (absent when the field input failed validation) plus the
deletion mark. -/
structure InlineCleanedData where
  field : Option String
  delete : Bool
deriving DecidableEq, Repr

/-- The structural errors `clean_field_filters` can raise, in the order the
code checks for them. -/
inductive SequenceError where
| atLeastOneRequired : SequenceError
| leadingSeparator : SequenceError
| trailingSeparator : SequenceError
| consecutiveSeparators : SequenceError
deriving DecidableEq, Repr

/-- Whether a cleaned-data entry is the OR-separator marker. -/
def dataIsSeparator (d : InlineCleanedData) : Bool := d.field == some OR_SEPARATOR

/-- The loop at the end of `clean_field_filters`, with its
`last_filter_was_or` flag, raising on the first consecutive pair. -/
def consecutive_loop : Bool → List InlineCleanedData → Option SequenceError
| _, [] => none
| last_was_or, d :: rest =>
  if dataIsSeparator d then
    if last_was_or then some SequenceError.consecutiveSeparators
    else consecutive_loop true rest
  else consecutive_loop false rest

/-- Whether the first entry of a list is the OR-separator marker. -/
def first_is_separator (l : List InlineCleanedData) : Bool :=
  (l.head?.map dataIsSeparator).getD false

/-- Whether the last entry of a list is the OR-separator marker. -/
def last_is_separator (l : List InlineCleanedData) : Bool :=
  (l.getLast?.map dataIsSeparator).getD false

/-- Embeds `FieldFilterInlineFormset.clean_field_filters` from
`model_filters/forms/inline.py`: drop entries marked for deletion, then
check emptiness, leading separator, trailing separator, and consecutive
separators, in that order, stopping at the first violation. -/
def clean_field_filters (cleaned_data : List InlineCleanedData) : Option SequenceError :=
  let filters := cleaned_data.filter (fun d => !d.delete)
  if filters.isEmpty then some SequenceError.atLeastOneRequired
  else if first_is_separator filters then some SequenceError.leadingSeparator
  else if last_is_separator filters then some SequenceError.trailingSeparator
  else consecutive_loop false filters

/-- Spec-side adjacency test: some two adjacent entries are both the
OR-separator marker. -/
def has_adjacent_separators : List InlineCleanedData → Bool
| a :: b :: rest => (dataIsSeparator a && dataIsSeparator b) || has_adjacent_separators (b :: rest)
| _ => false

/-- A user, identified by id, with the superuser flag. -/
structure User where
  id : Nat
  is_superuser : Bool
deriving DecidableEq, Repr

/-- A stored model filter row: `model_filters.models.ModelFilter`, with the
target content type and the owner kept as ids. -/
structure ModelFilterRec where
  name : Option String
  content_type : Nat
  owner : Nat
  ephemeral : Bool
deriving DecidableEq, Repr

/-- Embeds `user_can_access_content_type` from
`model_filters/utilities.py`: the user holds the view permission or the
change permission on the target model, asked of the external permission
service `hasPerm`. -/
def user_can_access_content_type (hasPerm : User → Nat → String → Bool)
    (user : User) (content_type : Nat) : Bool :=
  hasPerm user content_type "view" || hasPerm user content_type "change"

/-- Embeds `user_has_permission` from `model_filters/utilities.py`.
`sl` models reading the named boolean setting (`none` when unset, so the
default applies). The result is a three-valued answer: `some b` decides,
`none` defers to the caller's fallback permission check. -/
def user_has_permission (hasPerm : User → Nat → String → Bool)
    (sl : String → Option Bool) (user : User) (setting : String) (default : Bool)
    (model_filter : Option ModelFilterRec) : Option Bool :=
  if user.is_superuser then some true
  else
    match model_filter with
    | none => some true
    | some mf =>
      if !(user_can_access_content_type hasPerm user mf.content_type) then some false
      else if user.id == mf.owner then some true
      else if (sl setting).getD default then some false
      else none

/-- The shared shape of the admin permission hooks: run
`user_has_permission` for the action's setting and default, and fall back
to the framework's own permission check (`fallback`) when it defers. -/
def admin_permission_check (hasPerm : User → Nat → String → Bool)
    (sl : String → Option Bool) (setting : String) (default : Bool)
    (fallback : Bool) (user : User) (obj : Option ModelFilterRec) : Bool :=
  (user_has_permission hasPerm sl user setting default obj).getD fallback

/-- Embeds `ModelFilterAdminBase.has_view_permission`. -/
def has_view_permission (hasPerm : User → Nat → String → Bool)
    (sl : String → Option Bool) (fallback : Bool) (user : User)
    (obj : Option ModelFilterRec) : Bool :=
  admin_permission_check hasPerm sl SETTING_MODEL_FILTERS_VIEW_OWNER_ONLY
    DEFAULT_MODEL_FILTERS_VIEW_OWNER_ONLY fallback user obj

/-- Embeds `ModelFilterAdminBase.has_change_permission`. -/
def has_change_permission (hasPerm : User → Nat → String → Bool)
    (sl : String → Option Bool) (fallback : Bool) (user : User)
    (obj : Option ModelFilterRec) : Bool :=
  admin_permission_check hasPerm sl SETTING_MODEL_FILTERS_CHANGE_OWNER_ONLY
    DEFAULT_MODEL_FILTERS_CHANGE_OWNER_ONLY fallback user obj

/-- Embeds `ModelFilterAdminBase.has_delete_permission`. -/
def has_delete_permission (hasPerm : User → Nat → String → Bool)
    (sl : String → Option Bool) (fallback : Bool) (user : User)
    (obj : Option ModelFilterRec) : Bool :=
  admin_permission_check hasPerm sl SETTING_MODEL_FILTERS_DELETE_OWNER_ONLY
    DEFAULT_MODEL_FILTERS_DELETE_OWNER_ONLY fallback user obj

/-- Embeds `ModelFilterAdminBase.save_form` from
`model_filters/admin/model_filter.py`: after the form builds the instance,
the owner is set to the requesting user and the ephemeral flag is set to
whether the save-apply-discard key is in the request body. The `change`
flag is accepted and ignored, as in the code. -/
def save_form (request_user : User) (post_keys : List String) (_change : Bool)
    (form_instance : ModelFilterRec) : ModelFilterRec :=
  { form_instance with
      owner := request_user.id
      ephemeral := post_keys.contains FORM_SAVE_APPLY_DISCARD }

/-- Resolution of the view owner-only toggle against its default. -/
def view_owner_only (sl : String → Option Bool) : Bool :=
  (sl SETTING_MODEL_FILTERS_VIEW_OWNER_ONLY).getD DEFAULT_MODEL_FILTERS_VIEW_OWNER_ONLY

/-- Embeds `use_guardian` from `model_filters/utilities.py`: the setting
resolved against its default, and guardian must be installed. -/
def use_guardian (sl : String → Option Bool) (guardian_installed : Bool) : Bool :=
  (sl SETTING_MODEL_FILTERS_USE_GUARDIAN).getD DEFAULT_MODEL_FILTERS_USE_GUARDIAN
    && guardian_installed

/-- A stored filter with its id and its owned clause sequence; deleting the
filter deletes the clauses with it. -/
structure StoredFilter where
  id : Nat
  data : ModelFilterRec
  fields : List FieldFilter
deriving DecidableEq, Repr

/-- Modelled from the spec: guardian's `get_objects_for_user`, an external
collaborator absent from the sources. Per the spec's visibility contract it
returns the filters the user holds view permission for: all of them under a
class-level grant (guardian accepts global permissions), otherwise those
with an object-level grant. -/
def get_objects_for_user (classViewPerm : User → Bool) (objViewPerm : User → Nat → Bool)
    (user : User) (base : List StoredFilter) : List StoredFilter :=
  if classViewPerm user then base else base.filter (fun f => objViewPerm user f.id)

/-- Embeds `ModelFilterQuerySet.for_user` from
`model_filters/managers/model_filter.py`. `allFilters` is the default
manager's queryset (every stored filter) and `qs` the queryset the method
is called on; the guardian branch intersects `qs` with the union of the
owned filters and the guardian grant. -/
def for_user (sl : String → Option Bool) (guardian_installed : Bool)
    (classViewPerm : User → Bool) (objViewPerm : User → Nat → Bool) (user : User)
    (allFilters : List StoredFilter) (qs : List StoredFilter) : List StoredFilter :=
  if view_owner_only sl then qs.filter (fun f => f.data.owner == user.id)
  else if use_guardian sl guardian_installed then
    let owned := allFilters.filter (fun f => f.data.owner == user.id)
    let permitted := owned ++ get_objects_for_user classViewPerm objViewPerm user allFilters
    qs.filter (fun f => permitted.contains f)
  else if !(classViewPerm user) then qs.filter (fun f => f.data.owner == user.id)
  else qs

/-- A row of the listed model, abstracted as the set of atomic keyword
conditions it satisfies. -/
abbrev Row := List (String × QVal)

/-- The valuation a row induces on atomic conditions. -/
def row_env (r : Row) : String → QVal → Bool := fun k v => r.contains (k, v)

/-- The filter lookup done by `ModelFilterListFilter.queryset`: among the
filters visible to the user, the first with the selected id and the
changelist's content type. -/
def lookup_model_filter (sl : String → Option Bool) (guardian_installed : Bool)
    (classViewPerm : User → Bool) (objViewPerm : User → Nat → Bool) (user : User)
    (self_ct : Nat) (store : List StoredFilter) (fid : Nat) : Option StoredFilter :=
  ((for_user sl guardian_installed classViewPerm objViewPerm user store store).filter
    (fun f => f.id == fid && f.data.content_type == self_ct)).head?

/-- Embeds `ModelFilterListFilter.queryset` from
`model_filters/admin/list_filters.py`: with no selected value the rows pass
through; otherwise the selected filter is looked up among the visible
filters, and when found the rows are filtered by the compiled expression
and de-duplicated, and an ephemeral filter applied by its owner is deleted
from the store. A missing filter leaves rows and store untouched. -/
def list_filter_queryset (sl : String → Option Bool) (guardian_installed : Bool)
    (classViewPerm : User → Bool) (objViewPerm : User → Nat → Bool) (user : User)
    (self_ct : Nat) (store : List StoredFilter) (value : Option Nat)
    (rows : List Row) : List Row × List StoredFilter :=
  match value with
  | none => (rows, store)
  | some fid =>
    match lookup_model_filter sl guardian_installed classViewPerm objViewPerm user
        self_ct store fid with
    | none => (rows, store)
    | some mf =>
      let q := build_query_filter mf.fields
      let rows2 := (rows.filter (fun r => q.eval (row_env r))).dedup
      if mf.data.owner == user.id && mf.data.ephemeral then
        (rows2, store.filter (fun f => !(f.id == mf.id)))
      else (rows2, store)

/-- Python falsiness of an optional cleaned string. -/
def falsy : Option String → Bool
| none => true
| some s => s == ""

/-- The operator tokens usable with an empty value, as listed on
`FieldFilterForm.NO_VALUE_OPERATORS` (the OR-separator sentinel included). -/
def NO_VALUE_OPERATORS : List String := [IS_NULL, IS_TRUE, IS_FALSE, IS_EMPTY, OR_SEPARATOR]

/-- The outcome of value cleaning: the cleaned value (absent on the early
returns) and the errors attached to the value input afterwards. -/
structure CleanValueResult where
  value : Option String
  value_errors : List String
deriving DecidableEq, Repr

/-- The error message `_clean_value` formats for a failed conversion. -/
def format_value_error (field_type msg : String) : String :=
  "Value is not valid for field (" ++ field_type ++ "): " ++ msg

/-- Embeds `FieldFilterForm._clean_value` from
`model_filters/forms/field_filter.py`. `to_python` is the target field's
conversion, returning an error message on failure; `field_type` names the
field's internal type for the message. `prior_value_errors` are the errors
already attached to the value input when `clean` runs (the required-field
error when the value was empty). -/
def clean_value (to_python : String → String → Option String)
    (field_type : String → String) (field_path operator value : Option String)
    (prior_value_errors : List String) : CleanValueResult :=
  if falsy field_path then ⟨none, prior_value_errors⟩
  else if falsy operator then ⟨none, prior_value_errors⟩
  else if field_path == some OR_SEPARATOR || NO_VALUE_OPERATORS.contains (operator.getD "") then
    ⟨some "", []⟩
  else if falsy value then ⟨value, prior_value_errors⟩
  else
    match to_python (field_path.getD "") (value.getD "") with
    | none => ⟨value, prior_value_errors⟩
    | some msg =>
      ⟨value, prior_value_errors ++ [format_value_error (field_type (field_path.getD "")) msg]⟩

/-- The post-deletion view of the inline cleaned data. -/
def remaining (cleaned_data : List InlineCleanedData) : List InlineCleanedData :=
  cleaned_data.filter (fun d => !d.delete)

/-- Joint evaluation of the loop state: the OR branches so far, disjoined
with the current AND accumulator. -/
def final_eval (env : String → QVal → Bool) (p : QExpr × List QExpr) : Bool :=
  p.2.any (fun q => q.eval env) || p.1.eval env

/-! Concrete clauses, rows, users, and oracles used by witnesses and
counterexamples. -/

def env_true : String → QVal → Bool := fun _ _ => true

def cex_a : FieldFilter := ⟨"x", "exact", "1", true⟩

def cex_b : FieldFilter := ⟨"y", "exact", "2", false⟩

def cex_c : FieldFilter := ⟨"z", "exact", "3", false⟩

def cex_d : FieldFilter := ⟨"w", "exact", "4", false⟩

def cex_sep : FieldFilter := ⟨OR_SEPARATOR, "exact", "", false⟩

def cex_user : User := ⟨1, false⟩

def cex_mf : ModelFilterRec := ⟨some "f", 7, 2, false⟩

def no_perm : User → Nat → String → Bool := fun _ _ _ => false

def perm_all : User → Nat → String → Bool := fun _ _ _ => true

def toggles_off : String → Option Bool := fun _ => some false

def sl_none : String → Option Bool := fun _ => none

def cp_false : User → Bool := fun _ => false

def op_false : User → Nat → Bool := fun _ _ => false

def c5_editor : User := ⟨2, true⟩

def c5_mf : ModelFilterRec := ⟨some "Customer Filter", 7, 1, false⟩

def c4_filter : StoredFilter := ⟨5, ⟨some "Test Filter", 7, 1, true⟩, [⟨"name", "exact", "A", false⟩]⟩

def c4_row1 : Row := [("name__exact", QVal.conv "name" "A")]

def c4_row2 : Row := []

def tp_ok : String → String → Option String := fun _ _ => none

def ft_any : String → String := fun _ => "TextField"

/-! Helper lemmas about the query compiler. -/

theorem build_query_params_eq_spec (f : FieldFilter) :
    build_query_params f = spec_clause_params f := rfl

theorem make_query_filter_eval (env : String → QVal → Bool) (f : FieldFilter) :
    (make_query_filter f).eval env = spec_clause_holds env f := by
  unfold make_query_filter spec_clause_holds
  cases h : f.negate <;>
    simp [h, QExpr.eval, build_query_params_eq_spec]

theorem reduce_or_eval (env : String → QVal → Bool) (l : List QExpr) :
    ∀ q : QExpr, (reduce_or q l).eval env = (q.eval env || l.any (fun x => x.eval env)) := by
  induction l with
  | nil => intro q; simp [reduce_or]
  | cons x xs ih =>
    intro q
    have hx := ih (QExpr.qor q x)
    simp only [reduce_or, List.foldl_cons] at hx ⊢
    rw [hx]
    simp [QExpr.eval, Bool.or_assoc]

theorem build_query_filter_eval_final (fields : List FieldFilter) (env : String → QVal → Bool) :
    (build_query_filter fields).eval env
      = final_eval env (build_query_filter_loop fields (QExpr.leaf []) []) := by
  unfold build_query_filter
  cases hres : build_query_filter_loop fields (QExpr.leaf []) [] with
  | mk acc ors =>
    cases ors with
    | nil => simp [final_eval]
    | cons q rest =>
      simp only [reduce_or_eval, final_eval, List.any_append, List.any_cons]
      simp [Bool.or_assoc]

theorem build_loop_eval (env : String → QVal → Bool) :
    ∀ (fields : List FieldFilter) (acc : QExpr) (ors : List QExpr),
    final_eval env (build_query_filter_loop fields acc ors)
      = (ors.any (fun q => q.eval env)
          || ((acc.eval env && group_holds env (splitGroups fields).1)
              || ((splitGroups fields).2.any (group_holds env)))) := by
  intro fields
  induction fields with
  | nil =>
    intro acc ors
    simp [build_query_filter_loop, splitGroups, group_holds, final_eval]
  | cons f rest ih =>
    intro acc ors
    by_cases hsep : f.field = OR_SEPARATOR
    · simp only [build_query_filter_loop, splitGroups, if_pos hsep]
      rw [ih]
      simp [final_eval, List.any_append, List.any_cons, QExpr.eval, group_holds,
        Bool.or_assoc]
    · simp only [build_query_filter_loop, splitGroups, if_neg hsep]
      rw [ih]
      simp [QExpr.eval, group_holds, List.all_cons, make_query_filter_eval,
        Bool.or_assoc, Bool.and_assoc]

theorem build_query_filter_eval (fields : List FieldFilter) (env : String → QVal → Bool) :
    (build_query_filter fields).eval env = spec_compile_eval env fields := by
  rw [build_query_filter_eval_final, build_loop_eval]
  simp [spec_compile_eval, QExpr.eval]

theorem splitGroups_no_separator (fields : List FieldFilter)
    (h : ∀ f ∈ fields, f.field ≠ OR_SEPARATOR) : splitGroups fields = (fields, []) := by
  induction fields with
  | nil => rfl
  | cons f rest ih =>
    have hf : f.field ≠ OR_SEPARATOR := h f (List.mem_cons_self f rest)
    have hr := ih (fun g hg => h g (List.mem_cons_of_mem f hg))
    simp [splitGroups, hf, hr]

/-- C1: for every stored clause sequence, the compiled expression is the
disjunction of the AND-groups obtained by splitting exactly at OR-separator
positions, with each normal clause's condition built by the fixed operand
mapping of `spec_clause_params`; for clauses `[A, OR, B, C, OR, D]` the
result is equivalent to `A | (B & C) | D`, and with no separators it is the
plain conjunction of all clause conditions. -/
theorem compile_is_or_of_and_groups :
    (∀ (fields : List FieldFilter) (env : String → QVal → Bool),
       (build_query_filter fields).eval env = spec_compile_eval env fields) ∧
    (∀ (a s1 b c s2 d : FieldFilter) (env : String → QVal → Bool),
       a.field ≠ OR_SEPARATOR → b.field ≠ OR_SEPARATOR → c.field ≠ OR_SEPARATOR →
       d.field ≠ OR_SEPARATOR → s1.field = OR_SEPARATOR → s2.field = OR_SEPARATOR →
       (build_query_filter [a, s1, b, c, s2, d]).eval env
         = (spec_clause_holds env a
             || ((spec_clause_holds env b && spec_clause_holds env c)
                 || spec_clause_holds env d))) ∧
    (∀ (fields : List FieldFilter) (env : String → QVal → Bool),
       (∀ f ∈ fields, f.field ≠ OR_SEPARATOR) →
       (build_query_filter fields).eval env = fields.all (spec_clause_holds env)) := by
  refine ⟨fun fields env => build_query_filter_eval fields env, ?_, ?_⟩
  · intro a s1 b c s2 d env ha hb hc hd hs1 hs2
    rw [build_query_filter_eval]
    simp [spec_compile_eval, splitGroups, ha, hb, hc, hd, hs1, hs2, group_holds,
      Bool.or_assoc, Bool.and_assoc]
  · intro fields env h
    rw [build_query_filter_eval]
    simp [spec_compile_eval, splitGroups_no_separator fields h, group_holds]

/-- Witness for C1: the six-clause shape and the separator-free shape, at
concrete clauses and a concrete valuation. -/
theorem compile_is_or_of_and_groups_witness :
    ((build_query_filter [cex_a, cex_sep, cex_b, cex_c, cex_sep, cex_d]).eval env_true
       = (spec_clause_holds env_true cex_a
           || ((spec_clause_holds env_true cex_b && spec_clause_holds env_true cex_c)
               || spec_clause_holds env_true cex_d))) ∧
    ((build_query_filter [cex_b, cex_c]).eval env_true
       = [cex_b, cex_c].all (spec_clause_holds env_true)) := by
  constructor
  · exact compile_is_or_of_and_groups.2.1 cex_a cex_sep cex_b cex_c cex_sep cex_d env_true
      (by decide) (by decide) (by decide) (by decide) rfl rfl
  · exact compile_is_or_of_and_groups.2.2 [cex_b, cex_c] env_true (by decide)

/-- C8: per-clause negation only. For clauses `[A(negate), OR, B]` the
compiled expression evaluates to `(~A) | B`, and at a concrete input it
differs from `~(A | B)`. -/
theorem negate_applies_per_clause :
    (∀ (a s b : FieldFilter) (env : String → QVal → Bool),
       a.field ≠ OR_SEPARATOR → b.field ≠ OR_SEPARATOR → s.field = OR_SEPARATOR →
       a.negate = true → b.negate = false →
       (build_query_filter [a, s, b]).eval env
         = ((!((build_query_params a).all (fun p => env p.1 p.2)))
             || (build_query_params b).all (fun p => env p.1 p.2))) ∧
    ((build_query_filter [cex_a, cex_sep, cex_b]).eval env_true
       ≠ (!((build_query_params cex_a).all (fun p => env_true p.1 p.2)
            || (build_query_params cex_b).all (fun p => env_true p.1 p.2)))) := by
  constructor
  · intro a s b env ha hb hs hna hnb
    rw [build_query_filter_eval]
    simp [spec_compile_eval, splitGroups, ha, hb, hs, group_holds, spec_clause_holds,
      hna, hnb, build_query_params_eq_spec]
  · decide

/-- Witness for C8: the negated-OR shape at concrete clauses. -/
theorem negate_applies_per_clause_witness :
    (build_query_filter [cex_a, cex_sep, cex_b]).eval env_true
      = ((!((build_query_params cex_a).all (fun p => env_true p.1 p.2)))
          || (build_query_params cex_b).all (fun p => env_true p.1 p.2)) :=
  negate_applies_per_clause.1 cex_a cex_sep cex_b env_true (by decide) (by decide)
    rfl rfl rfl

/-- C10: the compiler is total over clause sequences, including ones that
break the separator placement rules: it always yields an expression, the
empty sequence compiles to the empty conjunction which matches every row,
and a sequence of only separators (empty AND-groups throughout) also
matches every row. -/
theorem compile_total_empty_tautology :
    (∀ env : String → QVal → Bool, (build_query_filter []).eval env = true) ∧
    (∀ (fields : List FieldFilter) (env : String → QVal → Bool),
       (∀ f ∈ fields, f.field = OR_SEPARATOR) →
       (build_query_filter fields).eval env = true) := by
  constructor
  · intro env
    rw [build_query_filter_eval]
    simp [spec_compile_eval, splitGroups, group_holds]
  · intro fields env h
    rw [build_query_filter_eval]
    cases fields with
    | nil => simp [spec_compile_eval, splitGroups, group_holds]
    | cons f rest =>
      have hf := h f (List.mem_cons_self f rest)
      simp [spec_compile_eval, splitGroups, hf, group_holds]

/-- Witness for C10: a sequence of two adjacent separators (invalid for the
sequence validator) still compiles, and the result matches every row. -/
theorem compile_total_empty_tautology_witness :
    (build_query_filter [cex_sep, cex_sep]).eval env_true = true :=
  compile_total_empty_tautology.2 [cex_sep, cex_sep] env_true (by decide)

/-! Helper lemmas about the sequence validator. -/

theorem clean_field_filters_def (cd : List InlineCleanedData) :
    clean_field_filters cd
      = (if (remaining cd).isEmpty then some SequenceError.atLeastOneRequired
         else if first_is_separator (remaining cd) then some SequenceError.leadingSeparator
         else if last_is_separator (remaining cd) then some SequenceError.trailingSeparator
         else consecutive_loop false (remaining cd)) := rfl

theorem has_adjacent_separators_cons (d : InlineCleanedData) (rest : List InlineCleanedData) :
    has_adjacent_separators (d :: rest)
      = ((dataIsSeparator d && first_is_separator rest) || has_adjacent_separators rest) := by
  cases rest <;> simp [has_adjacent_separators, first_is_separator]

theorem consecutive_loop_eq (l : List InlineCleanedData) :
    ∀ b : Bool, consecutive_loop b l
      = (if (b && first_is_separator l) || has_adjacent_separators l
         then some SequenceError.consecutiveSeparators else none) := by
  induction l with
  | nil => intro b; simp [consecutive_loop, first_is_separator, has_adjacent_separators]
  | cons d rest ih =>
    intro b
    by_cases hd : dataIsSeparator d = true
    · cases b with
      | true => simp [consecutive_loop, hd, first_is_separator, has_adjacent_separators_cons]
      | false =>
        rw [show consecutive_loop false (d :: rest) = consecutive_loop true rest by
              simp [consecutive_loop, hd]]
        rw [ih true, has_adjacent_separators_cons]
        simp [hd, first_is_separator]
    · rw [show consecutive_loop b (d :: rest) = consecutive_loop false rest by
            simp [consecutive_loop, hd]]
      rw [ih false, has_adjacent_separators_cons]
      have hd' : dataIsSeparator d = false := by simpa using hd
      simp [hd', first_is_separator]

/-- C2: the sequence validator rejects exactly the sequences that are empty
after excluding deletion-marked entries, or start with the separator, or
end with the separator, or contain two adjacent separators — every other
non-empty sequence is accepted — and the four rules are checked in that
order, stopping at the first violation, as witnessed by which error each
outcome pairs with. -/
theorem sequence_validation_characterization (cd : List InlineCleanedData) :
    (clean_field_filters cd = some SequenceError.atLeastOneRequired ↔ remaining cd = []) ∧
    (clean_field_filters cd = some SequenceError.leadingSeparator ↔
       remaining cd ≠ [] ∧ first_is_separator (remaining cd) = true) ∧
    (clean_field_filters cd = some SequenceError.trailingSeparator ↔
       remaining cd ≠ [] ∧ first_is_separator (remaining cd) = false ∧
       last_is_separator (remaining cd) = true) ∧
    (clean_field_filters cd = some SequenceError.consecutiveSeparators ↔
       remaining cd ≠ [] ∧ first_is_separator (remaining cd) = false ∧
       last_is_separator (remaining cd) = false ∧
       has_adjacent_separators (remaining cd) = true) ∧
    (clean_field_filters cd = none ↔
       remaining cd ≠ [] ∧ first_is_separator (remaining cd) = false ∧
       last_is_separator (remaining cd) = false ∧
       has_adjacent_separators (remaining cd) = false) := by
  rw [clean_field_filters_def]
  by_cases h1 : (remaining cd).isEmpty
  · have h1' : remaining cd = [] := by simpa [List.isEmpty_iff] using h1
    simp [h1, h1']
  · have h1' : remaining cd ≠ [] := by simpa [List.isEmpty_iff] using h1
    by_cases h2 : first_is_separator (remaining cd) = true
    · simp [h1, h1', h2]
    · have h2' : first_is_separator (remaining cd) = false := by simpa using h2
      by_cases h3 : last_is_separator (remaining cd) = true
      · simp [h1, h1', h2', h3]
      · have h3' : last_is_separator (remaining cd) = false := by simpa using h3
        rw [consecutive_loop_eq]
        by_cases h4 : has_adjacent_separators (remaining cd) = true
        · simp [h1, h1', h2', h3', h4]
        · have h4' : has_adjacent_separators (remaining cd) = false := by simpa using h4
          simp [h1, h1', h2', h3', h4']

/-- C3 counterexample: a non-superuser who does not own the filter, with
the view owner-only toggle disabled and a granting permission service
(fallback true), is nonetheless denied because they lack view-or-change
access to the filter's target model — the claim says the result would be
exactly the permission service's answer. -/
theorem access_control_counterexample :
    has_view_permission no_perm toggles_off true cex_user (some cex_mf) = false ∧
    cex_user.is_superuser = false ∧
    cex_user.id ≠ cex_mf.owner ∧
    (toggles_off SETTING_MODEL_FILTERS_VIEW_OWNER_ONLY).getD
      DEFAULT_MODEL_FILTERS_VIEW_OWNER_ONLY = false := by
  decide

/-- C3 amended: for a non-superuser and a stored filter, an owner with
view-or-change access to the target is granted; a non-owner is denied when
the action's owner-only toggle is on, regardless of permission-service
grants; a non-owner with target access and the toggle off gets exactly the
permission service's answer; and anyone without target access is denied,
regardless of grants. This instantiates to view, change, and delete
through `has_view_permission`, `has_change_permission`, and
`has_delete_permission`, which are `admin_permission_check` at the
action's setting and default. -/
theorem access_control_amended
    (hasPerm : User → Nat → String → Bool) (sl : String → Option Bool)
    (setting : String) (default fallback : Bool) (user : User) (mf : ModelFilterRec)
    (hsuper : user.is_superuser = false) :
    (user.id = mf.owner → user_can_access_content_type hasPerm user mf.content_type = true →
       admin_permission_check hasPerm sl setting default fallback user (some mf) = true) ∧
    (user.id ≠ mf.owner → (sl setting).getD default = true →
       admin_permission_check hasPerm sl setting default fallback user (some mf) = false) ∧
    (user.id ≠ mf.owner → user_can_access_content_type hasPerm user mf.content_type = true →
       (sl setting).getD default = false →
       admin_permission_check hasPerm sl setting default fallback user (some mf) = fallback) ∧
    (user_can_access_content_type hasPerm user mf.content_type = false →
       admin_permission_check hasPerm sl setting default fallback user (some mf) = false) := by
  refine ⟨?_, ?_, ?_, ?_⟩
  · intro howner hacc
    simp [admin_permission_check, user_has_permission, hsuper, hacc, howner]
  · intro howner htoggle
    by_cases hacc : user_can_access_content_type hasPerm user mf.content_type = true
    · simp [admin_permission_check, user_has_permission, hsuper, hacc, howner, htoggle]
    · have hacc' : user_can_access_content_type hasPerm user mf.content_type = false := by
        simpa using hacc
      simp [admin_permission_check, user_has_permission, hsuper, hacc']
  · intro howner hacc htoggle
    simp [admin_permission_check, user_has_permission, hsuper, hacc, howner, htoggle]
  · intro hacc
    simp [admin_permission_check, user_has_permission, hsuper, hacc]

/-- Witness for the amended C3: a non-owner with full target access, the
toggle explicitly off, and a granting permission service is granted. -/
theorem access_control_amended_witness :
    admin_permission_check perm_all toggles_off SETTING_MODEL_FILTERS_VIEW_OWNER_ONLY
      DEFAULT_MODEL_FILTERS_VIEW_OWNER_ONLY true cex_user (some cex_mf) = true :=
  (access_control_amended perm_all toggles_off SETTING_MODEL_FILTERS_VIEW_OWNER_ONLY
      DEFAULT_MODEL_FILTERS_VIEW_OWNER_ONLY true cex_user cex_mf rfl).2.2.1
    (by decide) (by decide) (by decide)

/-- C5: evaluating `save_form` at the failing input — an editor (here a
superuser, id 2) saving another user's filter (owner id 1) with a plain
save — shows the owner reassigned to the editor, contradicting the
owner-fixed-at-creation invariant; the target content type is preserved. -/
theorem owner_reassigned_on_save :
    (save_form c5_editor [FORM_SAVE_APPLY] true c5_mf).owner = c5_editor.id ∧
    c5_mf.owner ≠ c5_editor.id ∧
    (save_form c5_editor [FORM_SAVE_APPLY] true c5_mf).content_type = c5_mf.content_type := by
  decide

/-- C9: on every save, creation or edit alike, the ephemeral flag is
recomputed from the request body alone — true exactly when the
save-apply-discard key is present — so an ordinary re-save of an ephemeral
filter makes it non-ephemeral. -/
theorem ephemeral_recomputed_each_save (u : User) (post : List String) (change : Bool)
    (mf : ModelFilterRec) :
    ((save_form u post change mf).ephemeral = post.contains FORM_SAVE_APPLY_DISCARD) ∧
    (post.contains FORM_SAVE_APPLY_DISCARD = false →
       (save_form u post change mf).ephemeral = false) := by
  constructor
  · rfl
  · intro h
    simp [save_form]
    simpa using h

/-- Witness for C9: re-saving an ephemeral filter with a plain save leaves
it non-ephemeral. -/
theorem ephemeral_recomputed_each_save_witness :
    (save_form cex_user [FORM_SAVE_APPLY] true ⟨none, 7, 1, true⟩).ephemeral = false :=
  (ephemeral_recomputed_each_save cex_user [FORM_SAVE_APPLY] true ⟨none, 7, 1, true⟩).2
    (by decide)

/-- C6: the filters enumerable to a user are exactly their own when the
view owner-only toggle is on; otherwise the union of their own filters and
those they hold view permission for — a class-level grant covers every
filter, and an object-level grant counts when the guardian backend is in
use. -/
theorem for_user_visibility (sl : String → Option Bool) (gi : Bool) (cp : User → Bool)
    (op : User → Nat → Bool) (user : User) (allFilters : List StoredFilter)
    (f : StoredFilter) :
    f ∈ for_user sl gi cp op user allFilters allFilters ↔
      (f ∈ allFilters ∧
        (if view_owner_only sl then f.data.owner = user.id
         else (f.data.owner = user.id ∨ cp user = true ∨
               (use_guardian sl gi = true ∧ op user f.id = true)))) := by
  by_cases hv : view_owner_only sl = true
  · simp [for_user, hv, List.mem_filter]
  · have hv' : view_owner_only sl = false := by simpa using hv
    by_cases hg : use_guardian sl gi = true
    · by_cases hcp : cp user = true
      · simp [for_user, hv', hg, hcp, get_objects_for_user, List.mem_filter,
          List.contains, List.elem_iff, List.mem_append]
        tauto
      · have hcp' : cp user = false := by simpa using hcp
        simp [for_user, hv', hg, hcp', get_objects_for_user, List.mem_filter,
          List.contains, List.elem_iff, List.mem_append]
        tauto
    · have hg' : use_guardian sl gi = false := by simpa using hg
      by_cases hcp : cp user = true
      · simp [for_user, hv', hg', hcp]
      · have hcp' : cp user = false := by simpa using hcp
        simp [for_user, hv', hg', hcp', List.mem_filter]

/-! Helper lemmas about the changelist filter application. -/

theorem mem_for_user_subset (sl : String → Option Bool) (gi : Bool) (cp : User → Bool)
    (op : User → Nat → Bool) (user : User) (allFilters qs : List StoredFilter)
    (f : StoredFilter) (h : f ∈ for_user sl gi cp op user allFilters qs) : f ∈ qs := by
  simp only [for_user] at h
  split_ifs at h
  · exact (List.mem_filter.mp h).1
  · exact (List.mem_filter.mp h).1
  · exact (List.mem_filter.mp h).1
  · exact h

theorem lookup_eq_some (sl : String → Option Bool) (gi : Bool) (cp : User → Bool)
    (op : User → Nat → Bool) (user : User) (ct fid : Nat) (store : List StoredFilter)
    (mf : StoredFilter)
    (h : lookup_model_filter sl gi cp op user ct store fid = some mf) :
    mf.id = fid ∧ mf.data.content_type = ct ∧ mf ∈ store := by
  unfold lookup_model_filter at h
  cases hl : (for_user sl gi cp op user store store).filter
      (fun f => f.id == fid && f.data.content_type == ct) with
  | nil =>
    rw [hl] at h
    exact absurd h (by simp)
  | cons x xs =>
    rw [hl] at h
    have hx : x = mf := by simpa using h
    have hmem : mf ∈ (for_user sl gi cp op user store store).filter
        (fun f => f.id == fid && f.data.content_type == ct) := by
      rw [hl]
      exact hx ▸ List.mem_cons_self x xs
    obtain ⟨h1, h2⟩ := List.mem_filter.mp hmem
    have h3 := mem_for_user_subset sl gi cp op user store store mf h1
    simp at h2
    exact ⟨h2.1, h2.2, h3⟩

theorem lookup_after_delete (sl : String → Option Bool) (gi : Bool) (cp : User → Bool)
    (op : User → Nat → Bool) (user : User) (ct fid : Nat) (store : List StoredFilter) :
    lookup_model_filter sl gi cp op user ct
      (store.filter (fun f => !(f.id == fid))) fid = none := by
  unfold lookup_model_filter
  suffices hnil : (for_user sl gi cp op user (store.filter (fun f => !(f.id == fid)))
      (store.filter (fun f => !(f.id == fid)))).filter
      (fun f => f.id == fid && f.data.content_type == ct) = [] by
    rw [hnil]; rfl
  rw [List.filter_eq_nil_iff]
  intro f hf
  have hq := mem_for_user_subset sl gi cp op user _ _ f hf
  have hne := (List.mem_filter.mp hq).2
  simp at hne ⊢
  intro hcontra
  exact absurd hcontra hne

/-- C4 counterexample: an owner's first application of an ephemeral filter
narrows the rows and deletes the filter, but the second application with
the same id does not fail with any not-found outcome — it silently returns
the full unfiltered row list, the very same result as applying no filter
at all. -/
theorem second_apply_returns_naked_list :
    (list_filter_queryset sl_none false cp_false op_false cex_user 7 [c4_filter]
        (some 5) [c4_row1, c4_row2]).1 = [c4_row1] ∧
    (list_filter_queryset sl_none false cp_false op_false cex_user 7 [c4_filter]
        (some 5) [c4_row1, c4_row2]).2 = [] ∧
    list_filter_queryset sl_none false cp_false op_false cex_user 7 []
        (some 5) [c4_row1, c4_row2] = ([c4_row1, c4_row2], []) ∧
    list_filter_queryset sl_none false cp_false op_false cex_user 7 []
        none [c4_row1, c4_row2] = ([c4_row1, c4_row2], []) := by
  decide

/-- C4 amended: the first application of an ephemeral filter by its owner
returns the de-duplicated rows matching the compiled expression and
deletes the filter from the store; a second application using the same id
is a harmless no-op returning the listing unchanged (the lookup finds
nothing), not a crash. -/
theorem ephemeral_apply_once (sl : String → Option Bool) (gi : Bool) (cp : User → Bool)
    (op : User → Nat → Bool) (user : User) (ct fid : Nat) (store : List StoredFilter)
    (rows : List Row) (mf : StoredFilter)
    (hlook : lookup_model_filter sl gi cp op user ct store fid = some mf)
    (howner : mf.data.owner = user.id) (heph : mf.data.ephemeral = true) :
    (list_filter_queryset sl gi cp op user ct store (some fid) rows
       = ((rows.filter (fun r => (build_query_filter mf.fields).eval (row_env r))).dedup,
          store.filter (fun f => !(f.id == mf.id)))) ∧
    (∀ rows2 : List Row,
       list_filter_queryset sl gi cp op user ct
           (store.filter (fun f => !(f.id == mf.id))) (some fid) rows2
         = (rows2, store.filter (fun f => !(f.id == mf.id)))) := by
  have hid : mf.id = fid := (lookup_eq_some sl gi cp op user ct fid store mf hlook).1
  constructor
  · simp [list_filter_queryset, hlook, howner, heph]
  · intro rows2
    rw [hid]
    simp [list_filter_queryset, lookup_after_delete]

/-- Witness for the amended C4: a concrete owner, ephemeral filter, and
two-row listing. -/
theorem ephemeral_apply_once_witness :
    (list_filter_queryset sl_none false cp_false op_false cex_user 7 [c4_filter]
        (some 5) [c4_row1, c4_row2]
      = (([c4_row1, c4_row2].filter
            (fun r => (build_query_filter c4_filter.fields).eval (row_env r))).dedup,
         [c4_filter].filter (fun f => !(f.id == c4_filter.id)))) ∧
    (list_filter_queryset sl_none false cp_false op_false cex_user 7
        ([c4_filter].filter (fun f => !(f.id == c4_filter.id))) (some 5) [c4_row2]
      = ([c4_row2], [c4_filter].filter (fun f => !(f.id == c4_filter.id)))) := by
  have h := ephemeral_apply_once sl_none false cp_false op_false cex_user 7 5
    [c4_filter] [c4_row1, c4_row2] c4_filter (by decide) (by decide) (by decide)
  exact ⟨h.1, h.2 [c4_row2]⟩

/-- C7 counterexample: a clause whose field is the OR-separator sentinel
but whose operator input is empty or missing takes the early return of
value cleaning: the value is not forced to the empty string (it comes back
absent), and a prior required-value error is left in place instead of
being waived. -/
theorem no_value_cleaning_counterexample :
    clean_value tp_ok ft_any (some OR_SEPARATOR) (some "") (some "junk") [] = ⟨none, []⟩ ∧
    (clean_value tp_ok ft_any (some OR_SEPARATOR) (some "") (some "junk") []).value
      ≠ some "" ∧
    clean_value tp_ok ft_any (some OR_SEPARATOR) none (some "") ["This field is required."]
      = ⟨none, ["This field is required."]⟩ := by
  decide

/-- C7 amended: provided the field and operator inputs are present and
non-empty, a clause whose operator is a no-value operator or whose field
is the OR-separator sentinel has its value forced to the empty string with
every value error dropped — any supplied value is silently discarded,
never reported, and never converted (the result does not depend on the
conversion oracle at all). -/
theorem no_value_cleaning_amended (tp : String → String → Option String)
    (ft : String → String) (fp op v : Option String) (prior : List String)
    (h1 : falsy fp = false) (h2 : falsy op = false)
    (h3 : fp = some OR_SEPARATOR ∨ NO_VALUE_OPERATORS.contains (op.getD "") = true) :
    clean_value tp ft fp op v prior = ⟨some "", []⟩ := by
  rcases h3 with h3 | h3
  · subst h3
    simp [clean_value, h1, h2]
  · have h3' : op.getD "" ∈ NO_VALUE_OPERATORS := by simpa using h3
    simp [clean_value, h1, h2, h3']

/-- Witness for the amended C7: an is-true clause with junk value and a
stale required-value error is cleaned to the empty value with no errors. -/
theorem no_value_cleaning_amended_witness :
    clean_value tp_ok ft_any (some "flag") (some IS_TRUE) (some "junk")
      ["This field is required."] = ⟨some "", []⟩ :=
  no_value_cleaning_amended tp_ok ft_any (some "flag") (some IS_TRUE) (some "junk")
    ["This field is required."] (by decide) (by decide) (Or.inr (by decide))

end ModelFilters
